import Mathlib

/-!
Verification development for the sora-cam python client
(`soracam/soracam_api.py`, `soracam/soracam_api_config.py`,
`soracam/soracam_error.py`).

The embedding models the client's control flow over abstract response
sequences: network time is idealised (a GET takes no time), so elapsed
time inside the export-poll loop is the sum of the sleeps performed.
-/

namespace SoraCam

/-! ## Configuration constants (`soracam_api_config.py`) -/

def REQUESTS_TIMEOUT : Nat := 60
def LOOP_WAITE_SECOND : Nat := 10
def LOOP_WAITE_MAX_SECOND : Nat := 60
def WAITE_TIMEOUT : Nat := 900
def MAX_API_RETRIES : Nat := 3
def RETRY_INTERVAL : Nat := 3

/-! ## Export-status poll loop (`SoraCamClient._check_export_status`)

The loop body is, in order: GET the status resource, compare the status
with the expected terminal value, compare with `"failed"`, then
`if wait_time <= LOOP_WAITE_MAX_SECOND: wait_time += LOOP_WAITE_SECOND`
followed by `time.sleep(wait_time)` — the increment happens BEFORE the
sleep.  The loop guard re-checks `time.time() - start_time <
WAITE_TIMEOUT`; with instantaneous GETs the elapsed time is the sum of
the sleeps so far.  The statuses observed by the loop are abstracted as
a function from the poll index to the status string extracted by
`response.get("status", "")`. -/

/-- Outcome of `_check_export_status`: a normal `return b` (the code only
ever executes `return True`), or one of the two raised exceptions. -/
inductive PollResult where
  | returns (b : Bool)
  | exportFailedErr
  | exportTimeoutErr
deriving DecidableEq, Repr

/-- One execution of
`if wait_time <= LOOP_WAITE_MAX_SECOND: wait_time += LOOP_WAITE_SECOND`. -/
def waitStep (wait : Nat) : Nat :=
  if wait ≤ LOOP_WAITE_MAX_SECOND then wait + LOOP_WAITE_SECOND else wait

/-- The poll loop of `_check_export_status`.  `statuses i` is the status
string the `i`-th GET returns, `elapsed` the time consumed so far,
`wait` the current `wait_time`.  Returns the outcome, the number of GET
(polling) calls performed, and the list of sleep durations performed, in
order. -/
def pollAux (statuses : Nat → String) (expected : String)
    (i elapsed wait : Nat) : PollResult × Nat × List Nat :=
  if elapsed < WAITE_TIMEOUT then
    if statuses i = expected then (.returns true, 1, [])
    else if statuses i = "failed" then (.exportFailedErr, 1, [])
    else
      let wait' := waitStep wait
      let rest := pollAux statuses expected (i + 1) (elapsed + wait') wait'
      (rest.1, rest.2.1 + 1, wait' :: rest.2.2)
  else (.exportTimeoutErr, 0, [])
termination_by WAITE_TIMEOUT - elapsed
decreasing_by
  have hw : 0 < waitStep wait := by
    unfold waitStep LOOP_WAITE_SECOND LOOP_WAITE_MAX_SECOND
    split <;> omega
  unfold WAITE_TIMEOUT at *
  omega

/-- `_check_export_status`: starts with `wait_time = LOOP_WAITE_SECOND`
and zero elapsed time. -/
def checkExportStatus (statuses : Nat → String) (expected : String) :
    PollResult × Nat × List Nat :=
  pollAux statuses expected 0 0 LOOP_WAITE_SECOND

/-- The value of `wait_time` at the start of iteration `k` when the
first `k` iterations all fall through to the sleep. -/
def waitAt (wait : Nat) : Nat → Nat
  | 0 => wait
  | k + 1 => waitStep (waitAt wait k)

/-- Elapsed time at the start of iteration `k` (the sum of the first `k`
sleeps), starting from `elapsed` with current wait `wait`. -/
def elapsedAt (elapsed wait : Nat) : Nat → Nat
  | 0 => elapsed
  | k + 1 => elapsedAt elapsed wait k + waitAt wait (k + 1)

lemma waitStep_pos (wait : Nat) : 0 < waitStep wait := by
  unfold waitStep LOOP_WAITE_SECOND LOOP_WAITE_MAX_SECOND
  split <;> omega

lemma le_waitStep (wait : Nat) : wait ≤ waitStep wait := by
  unfold waitStep
  split <;> omega

lemma waitStep_le_cap (wait : Nat)
    (h : wait ≤ LOOP_WAITE_MAX_SECOND + LOOP_WAITE_SECOND) :
    waitStep wait ≤ LOOP_WAITE_MAX_SECOND + LOOP_WAITE_SECOND := by
  unfold waitStep at *
  split <;> omega

lemma waitAt_waitStep (wait : Nat) (k : Nat) :
    waitAt (waitStep wait) k = waitAt wait (k + 1) := by
  induction k with
  | zero => rfl
  | succ k ih => simp [waitAt, ih]

lemma elapsedAt_waitStep (elapsed wait : Nat) (k : Nat) :
    elapsedAt (elapsed + waitStep wait) (waitStep wait) k =
      elapsedAt elapsed wait (k + 1) := by
  induction k with
  | zero => simp [elapsedAt, waitAt]
  | succ k ih => simp [elapsedAt, ih, waitAt_waitStep]

lemma le_elapsedAt (elapsed wait : Nat) (k : Nat) :
    elapsed ≤ elapsedAt elapsed wait k := by
  induction k with
  | zero => exact Nat.le_refl _
  | succ k ih => exact Nat.le_trans ih (Nat.le_add_right _ _)

/-- Observing `"failed"` at poll `k` (with no earlier terminal status and
the `k`-th iteration still inside the timeout window) makes the loop
raise `ExportFailedError` at once: `k + 1` GET calls and `k` sleeps in
total, none after the observation. -/
lemma pollAux_failed_at (statuses : Nat → String) (expected : String)
    (hexp : expected ≠ "failed") :
    ∀ k i elapsed wait,
      statuses (i + k) = "failed" →
      (∀ j < k, statuses (i + j) ≠ expected ∧ statuses (i + j) ≠ "failed") →
      elapsedAt elapsed wait k < WAITE_TIMEOUT →
      (pollAux statuses expected i elapsed wait).1 = .exportFailedErr ∧
      (pollAux statuses expected i elapsed wait).2.1 = k + 1 ∧
      (pollAux statuses expected i elapsed wait).2.2.length = k := by
  intro k
  induction k with
  | zero =>
    intro i elapsed wait hk _ helaps
    have hi : statuses i = "failed" := by simpa using hk
    have hlt : elapsed < WAITE_TIMEOUT := by simpa [elapsedAt] using helaps
    have hne : ("failed" = expected) = False :=
      eq_false (fun h => hexp h.symm)
    rw [pollAux.eq_def]
    simp [hlt, hi, hne]
  | succ k ih =>
    intro i elapsed wait hk hpre helaps
    have h0 := hpre 0 (Nat.succ_pos k)
    have hlt : elapsed < WAITE_TIMEOUT :=
      Nat.lt_of_le_of_lt (le_elapsedAt elapsed wait (k + 1)) helaps
    have hrec := ih (i + 1) (elapsed + waitStep wait) (waitStep wait)
      (by have e : i + 1 + k = i + (k + 1) := by omega
          rw [e]; exact hk)
      (fun j hj => by
        have e : i + 1 + j = i + (j + 1) := by omega
        rw [e]; exact hpre (j + 1) (by omega))
      (by rw [elapsedAt_waitStep]; exact helaps)
    rw [pollAux.eq_def]
    simp only [hlt, if_pos, if_neg]
    simp only [Nat.add_zero] at h0
    simp [h0.1, h0.2, hrec.1, hrec.2.1, hrec.2.2]

/-- The full run of the loop when no polled status is ever terminal:
15 GET calls and the sleep trace 20,30,40,50,60 then ten sleeps of 70
seconds, totalling exactly 900 seconds. -/
lemma pollAux_run_nonterminal (statuses : Nat → String) (expected : String)
    (h : ∀ j, statuses j ≠ expected ∧ statuses j ≠ "failed") :
    checkExportStatus statuses expected =
      (.exportTimeoutErr, 15,
        [20, 30, 40, 50, 60, 70, 70, 70, 70, 70, 70, 70, 70, 70, 70]) := by
  have h1 : ∀ j, (statuses j = expected) = False := fun j => eq_false (h j).1
  have h2 : ∀ j, (statuses j = "failed") = False := fun j => eq_false (h j).2
  rw [checkExportStatus]
  repeat (rw [pollAux.eq_def]; norm_num [waitStep, LOOP_WAITE_MAX_SECOND,
    LOOP_WAITE_SECOND, WAITE_TIMEOUT, h1, h2])

/-- Invariant of the sleep trace: successive sleeps never decrease, and
(provided the current `wait_time` already satisfies the bound) no sleep
exceeds `LOOP_WAITE_MAX_SECOND + LOOP_WAITE_SECOND`. -/
lemma pollAux_sleeps_inv (statuses : Nat → String) (expected : String) :
    ∀ fuel elapsed wait i, WAITE_TIMEOUT - elapsed ≤ fuel →
      wait ≤ LOOP_WAITE_MAX_SECOND + LOOP_WAITE_SECOND →
      List.Chain (· ≤ ·) wait
        (pollAux statuses expected i elapsed wait).2.2 ∧
      ∀ x ∈ (pollAux statuses expected i elapsed wait).2.2,
        x ≤ LOOP_WAITE_MAX_SECOND + LOOP_WAITE_SECOND := by
  intro fuel
  induction fuel with
  | zero =>
    intro elapsed wait i hfuel _
    have hout : ¬ elapsed < WAITE_TIMEOUT := by omega
    rw [pollAux.eq_def]
    simp [hout]
  | succ fuel ih =>
    intro elapsed wait i hfuel hw
    by_cases hlt : elapsed < WAITE_TIMEOUT
    · rw [pollAux.eq_def]
      by_cases he : statuses i = expected
      · simp [hlt, he]
      · by_cases hf : statuses i = "failed"
        · have hne : ("failed" = expected) = False := eq_false (hf ▸ he)
          simp [hlt, he, hf, hne]
        · have hws := waitStep_pos wait
          have hrec := ih (elapsed + waitStep wait) (waitStep wait) (i + 1)
            (by omega) (waitStep_le_cap wait hw)
          simp only [hlt, if_pos, he, hf, if_neg, if_false]
          refine ⟨?_, ?_⟩
          · simp only [List.chain_cons]
            exact ⟨le_waitStep wait, hrec.1⟩
          · intro x hx
            simp only [List.mem_cons] at hx
            rcases hx with hx | hx
            · rw [hx]; exact waitStep_le_cap wait hw
            · exact hrec.2 x hx
    · rw [pollAux.eq_def]
      simp [hlt]

/-- The first sleep of any run, if a sleep happens at all, is the
already-incremented interval `waitStep wait`. -/
lemma pollAux_head_sleep (statuses : Nat → String) (expected : String)
    (i elapsed wait : Nat) :
    (pollAux statuses expected i elapsed wait).2.2.head? = none ∨
    (pollAux statuses expected i elapsed wait).2.2.head? =
      some (waitStep wait) := by
  rw [pollAux.eq_def]
  by_cases hlt : elapsed < WAITE_TIMEOUT
  · by_cases he : statuses i = expected
    · simp [hlt, he]
    · by_cases hf : statuses i = "failed"
      · have hne : ("failed" = expected) = False := eq_false (hf ▸ he)
        simp [hlt, he, hf, hne]
      · simp [hlt, he, hf]
  · simp [hlt]

/-- C1: for every status sequence in which `"failed"` appears before the
expected terminal value (at a poll index still inside the timeout
window), `_check_export_status` raises `ExportFailedError` immediately
upon observing `"failed"`: it performs exactly `k + 1` polling GET calls
and exactly `k` sleeps, so no further poll and no further sleep follow
the observation. -/
theorem check_export_status_failed_short_circuit
    (statuses : Nat → String) (expected : String) (k : Nat)
    (hexp : expected ≠ "failed")
    (hk : statuses k = "failed")
    (hpre : ∀ j < k, statuses j ≠ expected ∧ statuses j ≠ "failed")
    (hwithin : elapsedAt 0 LOOP_WAITE_SECOND k < WAITE_TIMEOUT) :
    (checkExportStatus statuses expected).1 = .exportFailedErr ∧
    (checkExportStatus statuses expected).2.1 = k + 1 ∧
    (checkExportStatus statuses expected).2.2.length = k :=
  pollAux_failed_at statuses expected hexp k 0 0 LOOP_WAITE_SECOND
    (by simpa using hk) (fun j hj => by simpa using hpre j hj) hwithin

/-- Witness for C1 at the concrete sequence pending, pending, failed. -/
theorem check_export_status_failed_short_circuit_witness :
    elapsedAt 0 LOOP_WAITE_SECOND 2 < WAITE_TIMEOUT ∧
    (checkExportStatus (fun n => if n = 2 then "failed" else "pending")
        "completed").1 = .exportFailedErr ∧
    (checkExportStatus (fun n => if n = 2 then "failed" else "pending")
        "completed").2.1 = 3 :=
  ⟨by decide,
   (check_export_status_failed_short_circuit
      (fun n => if n = 2 then "failed" else "pending") "completed" 2
      (by decide) (by decide) (by decide) (by decide)).1,
   (check_export_status_failed_short_circuit
      (fun n => if n = 2 then "failed" else "pending") "completed" 2
      (by decide) (by decide) (by decide) (by decide)).2.1⟩

/-- C2: for every status sequence that never yields the expected
terminal value or `"failed"`, `_check_export_status` raises
`ExportTimeoutError`, and the total time slept is at least the ceiling
`WAITE_TIMEOUT` and strictly below the ceiling plus the final wait
interval (with the shipped constants the total is exactly 900). -/
theorem check_export_status_timeout_bounds
    (statuses : Nat → String) (expected : String)
    (h : ∀ j, statuses j ≠ expected ∧ statuses j ≠ "failed") :
    (checkExportStatus statuses expected).1 = .exportTimeoutErr ∧
    WAITE_TIMEOUT ≤ ((checkExportStatus statuses expected).2.2).sum ∧
    ((checkExportStatus statuses expected).2.2).sum <
      WAITE_TIMEOUT +
        ((checkExportStatus statuses expected).2.2).getLastD 0 := by
  rw [pollAux_run_nonterminal statuses expected h]
  refine ⟨rfl, by decide, by decide⟩

/-- Witness for C2 at the constant sequence pending, pending, ... -/
theorem check_export_status_timeout_bounds_witness :
    ((fun _ : Nat => "pending") 0 ≠ "completed" ∧
      (fun _ : Nat => "pending") 0 ≠ "failed") ∧
    (checkExportStatus (fun _ => "pending") "completed").1 =
      .exportTimeoutErr :=
  ⟨⟨by decide, by decide⟩,
   (check_export_status_timeout_bounds (fun _ => "pending") "completed"
      (fun _ => ⟨by simp, by simp⟩)).1⟩

/-- C3 counterexample: in the run where the status stays `"pending"`,
the loop actually sleeps 70 seconds (which exceeds the configured cap
`LOOP_WAITE_MAX_SECOND = 60`), and its first sleep is 20 seconds, not
the initial interval `LOOP_WAITE_SECOND = 10` — the code increments the
wait BEFORE sleeping, so the claim's cap bound and its
sleep-then-increase ordering are both false. -/
theorem poll_wait_cap_exceeded_cex :
    70 ∈ (checkExportStatus (fun _ => "pending") "completed").2.2 ∧
    ¬ (70 ≤ LOOP_WAITE_MAX_SECOND) ∧
    (checkExportStatus (fun _ => "pending") "completed").2.2.head? =
      some 20 ∧
    20 ≠ LOOP_WAITE_SECOND := by
  rw [pollAux_run_nonterminal (fun _ => "pending") "completed"
    (fun _ => ⟨by simp, by simp⟩)]
  decide

/-- C3 amended: across every run of the poll loop the sequence of
intervals actually slept is non-decreasing and never exceeds
`LOOP_WAITE_MAX_SECOND + LOOP_WAITE_SECOND` (the cap is overshot by one
increment), and each iteration first increases the interval by
`LOOP_WAITE_SECOND` (while it is still at most the cap) and only then
sleeps, so the first slept interval is `waitStep LOOP_WAITE_SECOND =
20`. -/
theorem poll_wait_monotone_capped_amended
    (statuses : Nat → String) (expected : String) :
    List.Chain' (· ≤ ·) (checkExportStatus statuses expected).2.2 ∧
    (∀ x ∈ (checkExportStatus statuses expected).2.2,
      x ≤ LOOP_WAITE_MAX_SECOND + LOOP_WAITE_SECOND) ∧
    (∀ x ∈ (checkExportStatus statuses expected).2.2.head?,
      x = waitStep LOOP_WAITE_SECOND) := by
  have hinv := pollAux_sleeps_inv statuses expected WAITE_TIMEOUT 0
    LOOP_WAITE_SECOND 0 (by omega) (by decide)
  refine ⟨?_, hinv.2, ?_⟩
  · have hchain := hinv.1
    cases hss : (checkExportStatus statuses expected).2.2 with
    | nil => simp
    | cons a l =>
      rw [checkExportStatus] at hss
      rw [hss] at hchain
      exact (List.chain_cons.mp hchain).2
  · intro x hx
    rcases pollAux_head_sleep statuses expected 0 0 LOOP_WAITE_SECOND with
      hh | hh
    · rw [checkExportStatus, hh] at hx
      simp at hx
    · rw [checkExportStatus, hh] at hx
      simp at hx
      omega

/-- Witness for C3's amended statement at the all-pending run. -/
theorem poll_wait_monotone_capped_amended_witness :
    70 ≤ LOOP_WAITE_MAX_SECOND + LOOP_WAITE_SECOND :=
  (poll_wait_monotone_capped_amended (fun _ => "pending") "completed").2.1
    70 (by
      rw [pollAux_run_nonterminal (fun _ => "pending") "completed"
        (fun _ => ⟨by simp, by simp⟩)]
      decide)

/-! ## HTTP request executor (`SoraCamClient._get`, `SoraCamClient._post`)

Both methods run `for _ in range(_MAX_API_RETRIES)`: perform the
request, `raise_for_status()`, and on `HTTPError` record it as
`last_exception`, then `time.sleep(RETRY_INTERVAL)` and continue if the
status code is 429, re-raise otherwise; after the loop,
`raise last_exception`.  `_get` (with `raw=False`, the JSON-decoding
path) returns `response.json()` — a body that is not valid JSON makes
`response.json()` raise `ValueError`, which the `except HTTPError`
clause does not catch; `_post` wraps `response.json()` in
`try/except ValueError: return {}`. -/

/-- One attempt as seen by `_get`/`_post`: a 2xx response whose body
parses to `some body` (or fails to parse: `none`), or a non-2xx status
for which `raise_for_status` raises `requests.exceptions.HTTPError`. -/
inductive Attempt (α : Type) where
  | ok (body : Option α)
  | httpError (code : Nat)
deriving DecidableEq

/-- Observable outcome of `_get` (non-raw). -/
inductive GetResult (α : Type) where
  | success (body : α)
  | raisedHttp (code : Nat)
  | raisedJson
  | raisedNone
deriving DecidableEq

/-- Observable outcome of `_post`. -/
inductive PostResult (α : Type) where
  | success (body : α)
  | successEmpty
  | raisedHttp (code : Nat)
  | raisedNone
deriving DecidableEq

/-- The retry loop of `_get` with `raw=False`.  `resp i` is the `i`-th
attempt's response, `budget` the remaining iterations of
`range(_MAX_API_RETRIES)`, `last` the recorded `last_exception`.
Returns the outcome, the number of requests performed, and the list of
sleeps performed. -/
def getAux {α : Type} (resp : Nat → Attempt α) :
    Nat → Nat → Option Nat → GetResult α × Nat × List Nat
  | _, 0, last =>
    ((match last with
      | some c => GetResult.raisedHttp c
      | none => GetResult.raisedNone), 0, [])
  | i, budget + 1, _ =>
    match resp i with
    | .ok (some body) => (.success body, 1, [])
    | .ok none => (.raisedJson, 1, [])
    | .httpError c =>
      if c = 429 then
        let rest := getAux resp (i + 1) budget (some c)
        (rest.1, rest.2.1 + 1, RETRY_INTERVAL :: rest.2.2)
      else (.raisedHttp c, 1, [])

/-- `_get` with `raw=False`. -/
def httpGet {α : Type} (resp : Nat → Attempt α) :
    GetResult α × Nat × List Nat :=
  getAux resp 0 MAX_API_RETRIES none

/-- The retry loop of `_post`; identical to `_get`'s except that a 2xx
body that fails JSON decoding yields `return {}`. -/
def postAux {α : Type} (resp : Nat → Attempt α) :
    Nat → Nat → Option Nat → PostResult α × Nat × List Nat
  | _, 0, last =>
    ((match last with
      | some c => PostResult.raisedHttp c
      | none => PostResult.raisedNone), 0, [])
  | i, budget + 1, _ =>
    match resp i with
    | .ok (some body) => (.success body, 1, [])
    | .ok none => (.successEmpty, 1, [])
    | .httpError c =>
      if c = 429 then
        let rest := postAux resp (i + 1) budget (some c)
        (rest.1, rest.2.1 + 1, RETRY_INTERVAL :: rest.2.2)
      else (.raisedHttp c, 1, [])

/-- `_post`. -/
def httpPost {α : Type} (resp : Nat → Attempt α) :
    PostResult α × Nat × List Nat :=
  postAux resp 0 MAX_API_RETRIES none

/-- C4: `_get` and `_post` retry only on HTTP 429, sleeping exactly
`RETRY_INTERVAL` before each retry of the loop, for at most
`MAX_API_RETRIES` attempts; a success within the budget returns the
payload, exhausting the budget on rate limits raises the last observed
HTTP error (429), and any other non-2xx status is raised immediately
after exactly the attempts that preceded it, with no further request. -/
theorem http_retry_policy {α : Type} (resp : Nat → Attempt α) :
    (∀ j (body : α), j < MAX_API_RETRIES →
        (∀ i < j, resp i = .httpError 429) → resp j = .ok (some body) →
        (httpGet resp).1 = .success body ∧
        (httpGet resp).2.1 = j + 1 ∧
        (httpGet resp).2.2 = List.replicate j RETRY_INTERVAL ∧
        (httpPost resp).1 = .success body ∧
        (httpPost resp).2.1 = j + 1 ∧
        (httpPost resp).2.2 = List.replicate j RETRY_INTERVAL) ∧
    ((∀ i < MAX_API_RETRIES, resp i = .httpError 429) →
        (httpGet resp).1 = .raisedHttp 429 ∧
        (httpGet resp).2.1 = MAX_API_RETRIES ∧
        (httpPost resp).1 = .raisedHttp 429 ∧
        (httpPost resp).2.1 = MAX_API_RETRIES) ∧
    (∀ j c, j < MAX_API_RETRIES → c ≠ 429 →
        (∀ i < j, resp i = .httpError 429) → resp j = .httpError c →
        (httpGet resp).1 = .raisedHttp c ∧
        (httpGet resp).2.1 = j + 1 ∧
        (httpGet resp).2.2 = List.replicate j RETRY_INTERVAL ∧
        (httpPost resp).1 = .raisedHttp c ∧
        (httpPost resp).2.1 = j + 1 ∧
        (httpPost resp).2.2 = List.replicate j RETRY_INTERVAL) := by
  refine ⟨?_, ?_, ?_⟩
  · intro j body hj hpre hok
    have hj3 : j < 3 := hj
    interval_cases j
    · simp [httpGet, httpPost, getAux, postAux, MAX_API_RETRIES, hok]
    · simp [httpGet, httpPost, getAux, postAux, MAX_API_RETRIES,
        RETRY_INTERVAL, hpre 0 (by omega), hok]
    · simp [httpGet, httpPost, getAux, postAux, MAX_API_RETRIES,
        RETRY_INTERVAL, hpre 0 (by omega), hpre 1 (by omega), hok]
  · intro h
    simp [httpGet, httpPost, getAux, postAux, MAX_API_RETRIES,
      RETRY_INTERVAL, h 0 (by decide), h 1 (by decide), h 2 (by decide)]
  · intro j c hj hc hpre hok
    have hj3 : j < 3 := hj
    interval_cases j
    · simp [httpGet, httpPost, getAux, postAux, MAX_API_RETRIES, hok, hc]
    · simp [httpGet, httpPost, getAux, postAux, MAX_API_RETRIES,
        RETRY_INTERVAL, hpre 0 (by omega), hok, hc]
    · simp [httpGet, httpPost, getAux, postAux, MAX_API_RETRIES,
        RETRY_INTERVAL, hpre 0 (by omega), hpre 1 (by omega), hok, hc]

/-- Witness for C4: two rate-limited attempts then a success. -/
theorem http_retry_policy_witness :
    (∀ i < 2, (fun i => if i < 2 then Attempt.httpError 429
        else Attempt.ok (some 7)) i = Attempt.httpError 429) ∧
    (httpGet (fun i => if i < 2 then Attempt.httpError 429
        else Attempt.ok (some 7))).1 = .success 7 ∧
    (httpPost (fun i => if i < 2 then Attempt.httpError 429
        else Attempt.ok (some 7))).1 = .success 7 := by
  refine ⟨by decide, ?_, ?_⟩
  · exact ((http_retry_policy _).1 2 7 (by decide) (by decide) (by decide)).1
  · exact ((http_retry_policy _).1 2 7 (by decide) (by decide)
      (by decide)).2.2.2.1

/-- C8: a 2xx response whose body is not valid JSON (reached after any
run of rate-limited attempts inside the budget) makes `_post` return the
empty object as a successful result, while the same response makes
`_get` raise the JSON decoding error — the leniency applies to POST
only. -/
theorem post_json_leniency {α : Type} (resp : Nat → Attempt α) (j : Nat)
    (hj : j < MAX_API_RETRIES)
    (hpre : ∀ i < j, resp i = .httpError 429)
    (hok : resp j = .ok none) :
    (httpPost resp).1 = .successEmpty ∧ (httpGet resp).1 = .raisedJson := by
  have hj3 : j < 3 := hj
  interval_cases j
  · simp [httpGet, httpPost, getAux, postAux, MAX_API_RETRIES, hok]
  · simp [httpGet, httpPost, getAux, postAux, MAX_API_RETRIES,
      RETRY_INTERVAL, hpre 0 (by omega), hok]
  · simp [httpGet, httpPost, getAux, postAux, MAX_API_RETRIES,
      RETRY_INTERVAL, hpre 0 (by omega), hpre 1 (by omega), hok]

/-- Witness for C8: the first attempt succeeds with an undecodable
body. -/
theorem post_json_leniency_witness :
    ((fun _ : Nat => Attempt.ok (none : Option Nat)) 0 =
      Attempt.ok none) ∧
    (httpPost (fun _ : Nat => Attempt.ok (none : Option Nat))).1 =
      .successEmpty ∧
    (httpGet (fun _ : Nat => Attempt.ok (none : Option Nat))).1 =
      .raisedJson :=
  ⟨by decide,
   (post_json_leniency (fun _ => Attempt.ok none) 0 (by decide)
      (fun i hi => absurd hi (Nat.not_lt_zero i)) (by decide)).1,
   (post_json_leniency (fun _ => Attempt.ok none) 0 (by decide)
      (fun i hi => absurd hi (Nat.not_lt_zero i)) (by decide)).2⟩


/-! ## Credential provider (`SoraCamClient._soracom_headers`)

The generator performs exactly one `requests.post` to the auth endpoint.
A transport-level exception is logged and re-raised unchanged
(`raise error`): no wrapping into any dedicated error type (the error
module defines no `AuthError`), and no retry.  The response's status
code is never inspected (`raise_for_status` is not called): the JSON
body is parsed and `param.get("apiKey")` / `param.get("token")` are
placed in the header dict, giving absent values when the keys are
missing. -/

/-- What the single `requests.post` of `_soracom_headers` does:
either raise a transport-level exception (abstracted by an identifier),
or return a response with a status code and the `apiKey`/`token` fields
extracted from its JSON body. -/
inductive AuthCallResult where
  | transportError (e : Nat)
  | response (status : Nat) (apiKey token : Option String)
deriving DecidableEq

/-- Observable outcome of `_soracom_headers`. -/
inductive AuthOutcome where
  | headers (apiKey token : Option String)
  | raisedOriginal (e : Nat)
deriving DecidableEq

/-- `_soracom_headers` over the sequence of auth responses; the second
component counts the auth POSTs performed. -/
def soracomHeaders (calls : Nat → AuthCallResult) : AuthOutcome × Nat :=
  match calls 0 with
  | .transportError e => (.raisedOriginal e, 1)
  | .response _ apiKey token => (.headers apiKey token, 1)

/-- C7 counterexample: an authentication response with status 403 (a
non-2xx status) does not propagate as any failure — `_soracom_headers`
never checks the status code, parses the body, and yields a header set
with absent key and token.  There is also no `AuthError` class in
`soracam_error.py` for it to propagate as. -/
theorem auth_non2xx_yields_headers_cex :
    soracomHeaders (fun _ => .response 403 none none) =
      (.headers none none, 1) := by
  decide

/-- C7 amended: `_soracom_headers` performs exactly one authentication
call with no retry; a transport failure is re-raised to the caller as
the original exception (not a dedicated `AuthError`); a response of any
status — 2xx or not — never raises: its body's `apiKey`/`token` fields
become the header values. -/
theorem auth_error_propagation_amended (calls : Nat → AuthCallResult) :
    (soracomHeaders calls).2 = 1 ∧
    (∀ e, calls 0 = .transportError e →
      (soracomHeaders calls).1 = .raisedOriginal e) ∧
    (∀ s a t, calls 0 = .response s a t →
      (soracomHeaders calls).1 = .headers a t) := by
  refine ⟨?_, ?_, ?_⟩
  · rw [soracomHeaders]
    cases calls 0 <;> rfl
  · intro e he
    rw [soracomHeaders, he]
  · intro s a t hr
    rw [soracomHeaders, hr]

/-- Witness for C7's amended statement: a transport failure is
re-raised unchanged and a non-2xx response yields headers. -/
theorem auth_error_propagation_amended_witness :
    ((fun _ : Nat => AuthCallResult.transportError 5) 0 =
      AuthCallResult.transportError 5) ∧
    (soracomHeaders (fun _ => .transportError 5)).1 =
      .raisedOriginal 5 ∧
    (soracomHeaders (fun _ => .response 500 (some "k") none)).1 =
      .headers (some "k") none :=
  ⟨by decide,
   (auth_error_propagation_amended (fun _ => .transportError 5)).2.1
      5 (by decide),
   (auth_error_propagation_amended
      (fun _ => .response 500 (some "k") none)).2.2
      500 (some "k") none (by decide)⟩

/-! ## Offline-device filter (`SoraCamClient.get_offline_devices`)

Iterates over the device list; for each device with
`not dv.get("connected", True)` it appends a dict with `device_name`,
`device_id` and `last_connection` taken from the device's `name`,
`deviceId` and `lastConnectedTime` fields (absent fields give `None`). -/

/-- The device fields `get_offline_devices` reads; each is optional
because the code supplies defaults through `dict.get`. -/
structure Device where
  connected : Option Bool
  name : Option String
  deviceId : Option String
  lastConnectedTime : Option Nat
deriving DecidableEq, Repr

/-- The `device_status` dict built for an offline device. -/
structure DeviceStatus where
  device_name : Option String
  device_id : Option String
  last_connection : Option Nat
deriving DecidableEq, Repr

/-- The record built from one device. -/
def deviceStatusOf (dv : Device) : DeviceStatus :=
  { device_name := dv.name
    device_id := dv.deviceId
    last_connection := dv.lastConnectedTime }

/-- `get_offline_devices` on an already-fetched device list. -/
def getOfflineDevices (deviceList : List Device) : List DeviceStatus :=
  deviceList.foldl
    (fun acc dv =>
      if ! (dv.connected.getD true) then acc ++ [deviceStatusOf dv]
      else acc)
    []

lemma getOfflineDevices_foldl (deviceList : List Device) :
    ∀ acc : List DeviceStatus,
      deviceList.foldl
        (fun acc dv =>
          if ! (dv.connected.getD true) then acc ++ [deviceStatusOf dv]
          else acc)
        acc =
      acc ++ (deviceList.filter
          (fun dv => decide (dv.connected = some false))).map
        deviceStatusOf := by
  induction deviceList with
  | nil => intro acc; simp
  | cons dv rest ih =>
    intro acc
    rw [List.foldl_cons, ih, List.filter_cons]
    rcases hc : dv.connected with _ | b
    · simp [hc]
    · cases b <;> simp [hc]

/-- C6 counterexample: a device whose `connected` flag is absent is NOT
returned by `get_offline_devices` — `dv.get("connected", True)`
defaults to `True`, so the device is treated as online and filtered
out, contradicting the claim that devices with the flag absent are
returned. -/
theorem get_offline_devices_absent_flag_cex :
    (Device.mk none (some "cam") (some "d1") (some 5)).connected = none ∧
    getOfflineDevices [Device.mk none (some "cam") (some "d1") (some 5)] =
      [] := by
  constructor
  · rfl
  · rfl

/-- C6 amended: `get_offline_devices` returns exactly the devices whose
`connected` flag is present and equal to `false` (a device with the
flag absent defaults to connected and is excluded), in order, each
mapped to the record carrying the device's `name`, `deviceId` and
`lastConnectedTime` as `device_name`, `device_id` and
`last_connection`. -/
theorem get_offline_devices_exact_amended (deviceList : List Device) :
    getOfflineDevices deviceList =
      (deviceList.filter
        (fun dv => decide (dv.connected = some false))).map
        deviceStatusOf := by
  rw [getOfflineDevices, getOfflineDevices_foldl]
  simp


/-! ## Paginated fetcher (`SoraCamClient.fetch_paginated_data`)

```
params = init_params.copy()
aggregated_data = []
while True:
    response = self._get(url, params, True)
    if isinstance(response.json(), list): aggregated_data.extend(...)
    elif isinstance(response.json(), dict): aggregated_data.append(...)
    next_key = response.headers.get("x-soracom-next-key")
    if not next_key: break
    params["last_evaluated_key"] = next_key
return aggregated_data
```

Python dicts are mutable heap objects, so the embedding carries an
explicit heap of dicts (`List Params`) addressed by index: the caller's
dict lives at `initRef`; `init_params.copy()` allocates a fresh cell,
and the `params[...] = next_key` assignment mutates that cell only.
The page sequence the server returns is taken as a list; if the list is
exhausted while a continuation key is still present the model returns
`none` (the Python loop would issue another GET).  `if not next_key`
treats both a missing header and an empty-string header value as
absent. -/

/-- A Python dict with string keys and values, as an ordered
association list. -/
abbrev Params := List (String × String)

/-- Python dict assignment `d[k] = v`: replace the value in place when
the key exists, else append the pair. -/
def dictSet (d : Params) (k v : String) : Params :=
  if d.any (fun p => p.1 == k) then
    d.map (fun p => if p.1 == k then (k, v) else p)
  else d ++ [(k, v)]

/-- A page body: `response.json()` is either a list (extended into the
accumulator element by element) or a dict (appended as one record). -/
inductive PageBody (α : Type) where
  | list (items : List α)
  | obj (item : α)
deriving DecidableEq

/-- The records one page contributes, in order. -/
def pageRecords {α : Type} : PageBody α → List α
  | .list items => items
  | .obj item => [item]

/-- One page response: body plus the `x-soracom-next-key` response
header (`none` when absent). -/
structure Page (α : Type) where
  body : PageBody α
  nextKey : Option String
deriving DecidableEq

/-- The total record sequence of consecutive pages, in server order. -/
def listRecords {α : Type} (pages : List (Page α)) : List α :=
  (pages.map (fun p => pageRecords p.body)).flatten

/-- The `while True` loop of `fetch_paginated_data`.  `heap` is the dict
heap, `ref` the index of the (copied) `params` dict, `acc` the
`aggregated_data` accumulator, `reqs` the log of the `params` snapshots
passed to each GET.  Returns the aggregated records (`none` when the
given page list is exhausted with a continuation key still pending), the
final heap, and the request log. -/
def fetchAux {α : Type} :
    List (Page α) → List Params → Nat → List α → List Params →
      Option (List α) × List Params × List Params
  | [], heap, _, _, reqs => (none, heap, reqs)
  | p :: rest, heap, ref, acc, reqs =>
    let ps := heap.getD ref []
    let reqs2 := reqs ++ [ps]
    let acc2 := acc ++ pageRecords p.body
    match p.nextKey with
    | none => (some acc2, heap, reqs2)
    | some k =>
      if k.isEmpty then (some acc2, heap, reqs2)
      else
        fetchAux rest (heap.set ref (dictSet ps "last_evaluated_key" k))
          ref acc2 reqs2

/-- `fetch_paginated_data`: copy the caller's dict into a fresh heap
cell and run the loop on the copy. -/
def fetchPaginatedData {α : Type} (pages : List (Page α))
    (heap : List Params) (initRef : Nat) :
    Option (List α) × List Params × List Params :=
  fetchAux pages (heap ++ [heap.getD initRef []]) heap.length [] []

/-- The sequence of `params` dicts the loop sends: the initial copy,
then each successor obtained by setting `last_evaluated_key` to the
previous page's continuation token. -/
def paramsTrace (ps : Params) : List String → List Params
  | [] => [ps]
  | k :: ks => ps :: paramsTrace (dictSet ps "last_evaluated_key" k) ks

lemma paramsTrace_length (ps : Params) (ks : List String) :
    (paramsTrace ps ks).length = ks.length + 1 := by
  induction ks generalizing ps with
  | nil => rfl
  | cons k ks ih => simp [paramsTrace, ih]

/-- The loop never touches heap cells other than `ref`. -/
lemma fetchAux_heap_frame {α : Type} :
    ∀ (pages : List (Page α)) (heap : List Params) (ref : Nat)
      (acc : List α) (reqs : List Params) (idx : Nat), ref ≠ idx →
      ((fetchAux pages heap ref acc reqs).2.1)[idx]? = heap[idx]? := by
  intro pages
  induction pages with
  | nil => intro heap ref acc reqs idx _; rfl
  | cons p rest ih =>
    intro heap ref acc reqs idx hne
    simp only [fetchAux]
    cases hk : p.nextKey with
    | none => rfl
    | some k =>
      by_cases he : k.isEmpty
      · simp [he]
      · simp only [he, if_neg, Bool.false_eq_true, not_false_iff]
        rw [ih _ _ _ _ _ hne, List.getElem?_set_ne hne]

/-- Consuming `pre ++ [p]` where every page of `pre` carries a
(nonempty) continuation key and `p` carries none: the loop returns the
concatenation of all records and sends exactly the params trace obtained
by threading the keys of `pre`. -/
lemma fetchAux_consume {α : Type} (p : Page α) (hstop : p.nextKey = none) :
    ∀ (pre rest : List (Page α)) (heap : List Params) (ref : Nat)
      (acc : List α) (reqs : List Params), ref < heap.length →
      (∀ q ∈ pre, ∃ k, q.nextKey = some k ∧ k.isEmpty = false) →
      (fetchAux (pre ++ p :: rest) heap ref acc reqs).1 =
        some (acc ++ listRecords (pre ++ [p])) ∧
      (fetchAux (pre ++ p :: rest) heap ref acc reqs).2.2 =
        reqs ++ paramsTrace (heap.getD ref [])
          (pre.map (fun q => q.nextKey.getD "")) := by
  intro pre
  induction pre with
  | nil =>
    intro rest heap ref acc reqs _ _
    simp [fetchAux, hstop, listRecords, pageRecords, paramsTrace]
  | cons q pre ih =>
    intro rest heap ref acc reqs href hgo
    obtain ⟨k, hk, hke⟩ := hgo q (List.mem_cons_self q pre)
    have hrec := ih rest (heap.set ref
        (dictSet (heap.getD ref []) "last_evaluated_key" k)) ref
      (acc ++ pageRecords q.body) (reqs ++ [heap.getD ref []])
      (by simpa using href)
      (fun r hr => hgo r (List.mem_cons_of_mem q hr))
    have hset : (heap.set ref
        (dictSet (heap.getD ref []) "last_evaluated_key" k)).getD ref [] =
        dictSet (heap.getD ref []) "last_evaluated_key" k := by
      simp [List.getD_eq_getElem?_getD, List.getElem?_set_self href]
    rw [hset] at hrec
    simp only [List.cons_append, fetchAux, hk, hke, Bool.false_eq_true,
      if_neg, not_false_iff, List.append_eq]
    refine ⟨?_, ?_⟩
    · rw [hrec.1]
      simp [listRecords]
    · rw [hrec.2]
      simp [paramsTrace, hk]


/-- C10: the caller's params dict is unchanged by the call —
`fetch_paginated_data` copies `init_params` before ever writing the
`last_evaluated_key` pagination parameter, so the heap cell of the
caller's dict is identical before and after. -/
theorem fetch_paginated_preserves_caller_params {α : Type}
    (pages : List (Page α)) (heap : List Params) (initRef : Nat)
    (h : initRef < heap.length) :
    ((fetchPaginatedData pages heap initRef).2.1)[initRef]? =
      heap[initRef]? := by
  rw [fetchPaginatedData, fetchAux_heap_frame _ _ _ _ _ _ (by omega)]
  exact List.getElem?_append_left h

/-- Witness for C10: two pages, one continuation write. -/
theorem fetch_paginated_preserves_caller_params_witness :
    0 < ([[("limit", "10")]] : List Params).length ∧
    ((fetchPaginatedData
        [Page.mk (.obj 1) (some "k"), Page.mk (.list [2]) none]
        [[("limit", "10")]] 0).2.1)[0]? =
      ([[("limit", "10")]] : List Params)[0]? :=
  ⟨by decide,
   fetch_paginated_preserves_caller_params
     [Page.mk (.obj 1) (some "k"), Page.mk (.list [2]) none]
     [[("limit", "10")]] 0 (by decide)⟩

/-- C5: over any page sequence whose first continuation-free page is
`p` (every earlier page carrying a nonempty continuation token),
`fetch_paginated_data` (1) returns the concatenation, in server order,
of the records of the consumed pages — lists flattened, single objects
appended as one record, nothing dropped or duplicated; (2) sends each
follow-up request with `last_evaluated_key` set to the previous page's
token, starting from a copy of the initial params; (3) stops exactly at
`p`: it performs one request per consumed page and never touches the
remaining pages; and (4) returns the same records as a run that serves
the same total records in one single page. -/
theorem fetch_paginated_data_spec {α : Type} (pre rest : List (Page α))
    (p : Page α) (heap : List Params) (initRef : Nat)
    (hstop : p.nextKey = none)
    (hgo : ∀ q ∈ pre, ∃ k, q.nextKey = some k ∧ k.isEmpty = false) :
    (fetchPaginatedData (pre ++ p :: rest) heap initRef).1 =
      some (listRecords (pre ++ [p])) ∧
    (fetchPaginatedData (pre ++ p :: rest) heap initRef).2.2 =
      paramsTrace (heap.getD initRef [])
        (pre.map (fun q => q.nextKey.getD "")) ∧
    (fetchPaginatedData (pre ++ p :: rest) heap initRef).2.2.length =
      pre.length + 1 ∧
    (fetchPaginatedData [Page.mk (.list (listRecords (pre ++ [p]))) none]
        heap initRef).1 =
      (fetchPaginatedData (pre ++ p :: rest) heap initRef).1 := by
  have hcons := fetchAux_consume p hstop pre rest
    (heap ++ [heap.getD initRef []]) heap.length [] [] (by simp) hgo
  have hgetD : (heap ++ [heap.getD initRef []]).getD heap.length [] =
      heap.getD initRef [] := by
    simp [List.getD_eq_getElem?_getD, List.getElem?_concat_length]
  have hsingle := fetchAux_consume
    (Page.mk (.list (listRecords (pre ++ [p]))) none) rfl [] []
    (heap ++ [heap.getD initRef []]) heap.length [] [] (by simp)
    (fun q hq => absurd hq (List.not_mem_nil q))
  refine ⟨?_, ?_, ?_, ?_⟩
  · rw [fetchPaginatedData, hcons.1]
    simp
  · rw [fetchPaginatedData, hcons.2, hgetD]
    simp
  · rw [fetchPaginatedData, hcons.2]
    simp [paramsTrace_length]
  · rw [fetchPaginatedData, fetchPaginatedData, hcons.1]
    have h1 := hsingle.1
    simp only [List.nil_append] at h1
    rw [h1]
    simp [listRecords, pageRecords]

/-- Witness for C5: one list page with a continuation token followed by
one single-object page without. -/
theorem fetch_paginated_data_spec_witness :
    ((Page.mk (.obj 3) none : Page Nat).nextKey = none) ∧
    (fetchPaginatedData
        [Page.mk (.list [1, 2]) (some "k1"), Page.mk (.obj 3) none]
        [[("limit", "10")]] 0).1 = some [1, 2, 3] := by
  refine ⟨rfl, ?_⟩
  have h := (fetch_paginated_data_spec [Page.mk (.list [1, 2]) (some "k1")]
    [] (Page.mk (.obj 3) none) [[("limit", "10")]] 0 rfl
    (fun q hq => by
      rw [List.mem_singleton] at hq
      subst hq
      exact ⟨"k1", rfl, rfl⟩)).1
  simpa [listRecords, pageRecords] using h


/-! ## Export retrieval (`get_images_exports`, `get_videos_exports`)

Both are `if self._check_export_status(device_id, export_id, media):
return self._get(url)` — the media kind only selects the URL path.
Falling through the `if` (were the check ever to return a falsy value)
would be Python's implicit `return None`. -/

/-- Observable outcome of an export fetch: the payload returned by the
final `_get(url)`, the implicit `None` return, or one of the two
exceptions propagating out of `_check_export_status`. -/
inductive ExportFetchOutcome (α : Type) where
  | payload (a : α)
  | noneReturn
  | raisedFailed
  | raisedTimeout
deriving DecidableEq

/-- Shared body of `get_images_exports` / `get_videos_exports`.
`fetched` stands for the payload the final `_get(url)` returns. -/
def getExports {α : Type} (statuses : Nat → String) (fetched : α) :
    ExportFetchOutcome α :=
  match (checkExportStatus statuses "completed").1 with
  | .returns b => if b then .payload fetched else .noneReturn
  | .exportFailedErr => .raisedFailed
  | .exportTimeoutErr => .raisedTimeout

/-- `get_images_exports` (media `images`). -/
def getImagesExports {α : Type} (statuses : Nat → String) (fetched : α) :
    ExportFetchOutcome α :=
  getExports statuses fetched

/-- `get_videos_exports` (media `videos`). -/
def getVideosExports {α : Type} (statuses : Nat → String) (fetched : α) :
    ExportFetchOutcome α :=
  getExports statuses fetched

/-- The poll loop's only normal return is `return True`: it can never
return `False`. -/
lemma pollAux_not_returns_false (statuses : Nat → String)
    (expected : String) :
    ∀ fuel elapsed wait i, WAITE_TIMEOUT - elapsed ≤ fuel →
      (pollAux statuses expected i elapsed wait).1 ≠ .returns false := by
  intro fuel
  induction fuel with
  | zero =>
    intro elapsed wait i hf
    have hout : ¬ elapsed < WAITE_TIMEOUT := by omega
    rw [pollAux.eq_def]
    simp [hout]
  | succ fuel ih =>
    intro elapsed wait i hf
    rw [pollAux.eq_def]
    by_cases hlt : elapsed < WAITE_TIMEOUT
    · by_cases he : statuses i = expected
      · simp [hlt, he]
      · by_cases hfa : statuses i = "failed"
        · have hne : ("failed" = expected) = False := eq_false (hfa ▸ he)
          simp [hlt, he, hfa, hne]
        · have hws := waitStep_pos wait
          have hrec := ih (elapsed + waitStep wait) (waitStep wait) (i + 1)
            (by omega)
          simp only [hlt, if_pos, he, hfa, if_neg, if_false]
          simpa using hrec
    · simp [hlt]

/-- C9: whenever `get_images_exports` or `get_videos_exports` returns
normally, the returned value is the fetched export payload — no `None`
or partial value is ever returned, because `_check_export_status`
returns only `True` or raises. -/
theorem get_exports_no_partial {α : Type} (statuses : Nat → String)
    (fetched : α) :
    (getImagesExports statuses fetched ≠ .noneReturn ∧
      (getImagesExports statuses fetched = .payload fetched ∨
       getImagesExports statuses fetched = .raisedFailed ∨
       getImagesExports statuses fetched = .raisedTimeout)) ∧
    (getVideosExports statuses fetched ≠ .noneReturn ∧
      (getVideosExports statuses fetched = .payload fetched ∨
       getVideosExports statuses fetched = .raisedFailed ∨
       getVideosExports statuses fetched = .raisedTimeout)) := by
  have hnf := pollAux_not_returns_false statuses "completed" WAITE_TIMEOUT
    0 LOOP_WAITE_SECOND 0 (by omega)
  cases hr : (checkExportStatus statuses "completed").1 with
  | returns b =>
    cases b
    · rw [checkExportStatus] at hr
      exact absurd hr hnf
    · simp [getImagesExports, getVideosExports, getExports, hr]
  | exportFailedErr =>
    simp [getImagesExports, getVideosExports, getExports, hr]
  | exportTimeoutErr =>
    simp [getImagesExports, getVideosExports, getExports, hr]

end SoraCam
